import Mathlib

/-
Verification of the coarse-to-fine registration driver of dvo_slam
(src/dvo_core/src/dense_tracking.cpp, DenseTracker::match, lines 136-450).

Embedding conventions.
* Doubles are modelled as exact rationals extended with two special values:
  the sentinel std numeric limits double max (used to initialise the running
  error at the start of every pyramid level, line 211) and NaN.  IEEE
  comparison on these values is modelled by errLt: every comparison against
  NaN is false, and finite computed errors are taken to lie below the
  sentinel.  Floating point rounding is not modelled; the claims under
  study are control flow properties that only consume the results of
  comparisons.
* Rigid poses (Sophus SE3d) are modelled by an abstract group G together
  with two unconstrained functions exp : Vec6 -> G and log : G -> Vec6
  supplied in the input; the driver only ever multiplies, inverts and
  exponentiates poses, exactly as the source does.
* The numeric kernels that are compiled from files outside
  src/ (computeResidualsSse, computeWeightsSse, computeScaleSse,
  computeCompleteDataLogLikelihood in dense_tracking_impl.cpp, the
  NormalEquationsLeastSquares accumulator of least_squares.cpp, and the
  Eigen ldlt solver) are treated as oracles: per (pyramid level, iteration
  counter) the input supplies the number of valid residuals, the total
  error -ll, the weight buffer produced by computeWeightsSse, the
  accumulated matrix ls.A and the solved increment x.  The driver logic
  around them (lines 201-449) is embedded literally.
* The inner do-while loop (lines 248-428) is written with explicit fuel
  maxIterations + 1.  Continuation of the loop requires
  Iteration < MaxIterationsPerLevel and every continued pass increments
  Iteration, so this fuel is never exhausted before the loop condition
  fails; the lemma innerLoop_exit_cond makes this precise, therefore the
  fuel never alters the modelled behaviour.
-/

namespace DVO

/-- Model of a double precision value as consumed by the driver: a finite
rational, the sentinel std numeric limits double max (line 211), or NaN
(which can arise in the total error, for example when no residual is
valid). -/
inductive Err where
  | val (q : ℚ)
  | maxVal
  | nan
deriving DecidableEq, Repr

/-- IEEE strict less-than on modelled doubles (line 385 accept test):
comparisons involving NaN are false, finite values compare as rationals,
and finite computed values lie strictly below the sentinel. -/
def errLt : Err → Err → Bool
  | _, .nan => false
  | .nan, _ => false
  | .val a, .val b => decide (a < b)
  | .val _, .maxVal => true
  | .maxVal, _ => false

/-- Addition of a finite rational to a modelled double, used for
Result.LogLikelihood (line 447).  Adding to the sentinel is modelled as
saturation, and NaN absorbs. -/
def errAddQ : Err → ℚ → Err
  | .val a, q => .val (a + q)
  | .maxVal, _ => .maxVal
  | .nan, _ => .nan

/-- Six-vector over the rationals, the model of Eigen Vector6d. -/
abbrev Vec6 : Type := Fin 6 → ℚ

/-- Six-by-six matrix over the rationals, the model of Eigen Matrix6d. -/
abbrev Mat6 : Type := Fin 6 → Fin 6 → ℚ

/-- Model of Eigen lpNorm Infinity: the maximum absolute value of the six
coefficients (loop condition line 428 and termination test line 433). -/
def lpNormInf (v : Vec6) : ℚ :=
  ((List.finRange 6).map fun i => |v i|).foldr max 0

/-- Sum of squared coefficients, the model of squaredNorm (line 293). -/
def sqNorm (v : Vec6) : ℚ :=
  ((List.finRange 6).map fun i => v i * v i).foldr (· + ·) 0

/-- Identity six-by-six matrix, Matrix6d::Identity() of line 416. -/
def idMat : Mat6 := fun i j => if i = j then 1 else 0

/-- Modelled from the spec: the transactional two slot value of
dvo/util/revertable.h (a header of this repository outside src/), as
described in sections 4.4 and 9 of the specification: a committed slot
and a staged slot; update stages a new value saving the committed one,
revert discards the staged value.  The call pattern of lines 261-262 and
389-390 reads the staged value back through operator() until it is either
kept (no revert) or reverted. -/
structure Revertable (α : Type) where
  old : α
  value : α
deriving DecidableEq, Repr

/-- Staging an update: old takes the current value, value becomes the
staged one (the C++ update() returns a mutable reference to value after
saving it to old). -/
def Revertable.stage {α : Type} (r : Revertable α) (v : α) : Revertable α :=
  { old := r.value, value := v }

/-- Reverting: the committed (saved) value is restored. -/
def Revertable.revert {α : Type} (r : Revertable α) : Revertable α :=
  { old := r.old, value := r.old }

/-- Oracle output of one residual-and-likelihood evaluation (the kernels of
dense_tracking_impl.cpp, outside src/): the number n of valid residuals
(line 274) and the total error -ll (lines 287, 295). -/
structure EvalResult where
  n : ℕ
  err : Err
deriving DecidableEq, Repr

/-- Per-level termination criterion recorded in LevelStats (lines
430-437).  unset models the default-constructed TerminationCriterion of a
freshly pushed LevelStats (line 203), before any of the three assignments
fires. -/
inductive TermCrit where
  | unset
  | logLikelihoodDecreased
  | incrementTooSmall
  | iterationsExceeded
deriving DecidableEq, Repr

/-- Observational record of one execution of the do-while body, mirroring
IterationStats: Id (line 252), ValidConstraints (line 289),
TDistributionLogLikelihood (line 290), PriorLogLikelihood (line 293),
EstimateIncrement and EstimateInformation (lines 422-423, assigned only
when the pass was accepted, hence Option).  The fields weights (contents
of the weight buffer after lines 276-283) and accepted (outcome of the
line 385 test) are not fields of the C++ IterationStats; they are recorded
here so that specification statements can refer to them. -/
structure IterRec where
  id : ℕ
  validConstraints : ℕ
  tll : Err
  priorLL : ℚ
  weights : List ℚ
  increment : Option Vec6
  information : Option Mat6
  accepted : Bool
deriving DecidableEq

/-- Observational record of one pyramid level, mirroring LevelStats: Id,
MaxValidPixels, ValidPixels (lines 230-232), the iteration records and the
termination criterion.  The final* fields observe the loop state at the
moment the criterion is assigned (lines 430-437); they are not fields of
the C++ LevelStats. -/
structure LevelRec where
  id : ℤ
  maxValidPixels : ℕ
  validPixels : ℕ
  iterations : List IterRec
  criterion : TermCrit
  finalAccept : Bool
  finalX : Vec6
  finalIter : ℕ
deriving DecidableEq

/-- Input of one match call: the configuration fields read by the driver,
the initial transformation of the caller, the abstract pose interface, and
the oracles for the numeric kernels compiled from outside src/ (indexed by
pyramid level and by the iteration counter at entry of the pass). -/
structure MatchInput (G : Type) where
  firstLevel : ℤ
  lastLevel : ℤ
  maxIterations : ℕ
  precision : ℚ
  mu : ℚ
  useInitialEstimate : Bool
  guess : G
  exp : Vec6 → G
  log : G → Vec6
  eval : ℤ → ℕ → EvalResult
  weightsAt : ℤ → ℕ → List ℚ
  lsA : ℤ → ℕ → Mat6
  solve : ℤ → ℕ → Vec6
  maxPoints : ℤ → ℕ
  validPixels : ℤ → ℕ

/-- State of the inner do-while loop (lines 248-428): the two transactional
poses, the last applied increment inc, the solved increment x, the
iteration context counters and errors, the accept flag, and the iteration
records pushed so far on the current level. -/
structure LoopState (G : Type) where
  initial : Revertable G
  estimate : Revertable G
  inc : G
  x : Vec6
  iter : ℕ
  error : Err
  lastError : Err
  accept : Bool
  recs : List IterRec

/-- State carried across pyramid levels: the quantities declared before
the level loop (lines 148-153) together with the accumulated level
records. -/
structure GlobalState (G : Type) where
  initial : Revertable G
  estimate : Revertable G
  inc : G
  accept : Bool
  lastError : Err
  levels : List LevelRec

variable {G : Type}

/-- Modelled from the spec: IterationContext::IsFirstIterationOnLevel of
dvo/dense_tracking.h (outside src/), used at line 276; per section 4.3 of
the specification it holds exactly on the first iteration of a level,
that is when the iteration counter is zero. -/
def isFirstIterationOnLevel (k : ℕ) : Bool := k = 0

/-- Modelled from the spec: IterationContext::IterationsExceeded of
dvo/dense_tracking.h (outside src/), used at lines 428 and 436; per
section 4.1 of the specification it holds when
Iteration >= MaxIterationsPerLevel. -/
def iterationsExceeded (inp : MatchInput G) (iter : ℕ) : Bool :=
  inp.maxIterations ≤ iter

/-- Applied pose increment of a pass: inc = SE3d::exp(x) (line 260). -/
def appliedInc (inp : MatchInput G) (s : LoopState G) : G := inp.exp s.x

/-- Acceptance test of a pass (lines 379-385): the freshly evaluated total
error must be strictly below the error of the previous pass (the sentinel
at level start). -/
def bodyAccepts (inp : MatchInput G) (level : ℤ) (s : LoopState G) : Bool :=
  errLt (inp.eval level s.iter).err s.error

/-- Normal equations matrix A = ls.A + Mu * Identity (line 416). -/
def mkA (inp : MatchInput G) (level : ℤ) (k : ℕ) : Mat6 :=
  inp.lsA level k + inp.mu • idMat

/-- Iteration record produced by one execution of the do-while body:
Id = Iteration (line 252), ValidConstraints and the likelihood statistics
(lines 289-293, assigned before the acceptance test), the weight buffer
(lines 276-283: all ones on the first iteration of the level, otherwise
the computeWeightsSse oracle), and, only when the pass is accepted, the
solved increment and the information matrix (lines 416-423). -/
def bodyRec [Group G] (inp : MatchInput G) (level : ℤ) (s : LoopState G) : IterRec :=
  { id := s.iter
    validConstraints := (inp.eval level s.iter).n
    tll := (inp.eval level s.iter).err
    priorLL := inp.mu * sqNorm (inp.log ((appliedInc inp s)⁻¹ * s.initial.value))
    weights :=
      if isFirstIterationOnLevel s.iter then
        List.replicate (inp.eval level s.iter).n 1
      else inp.weightsAt level s.iter
    increment := if bodyAccepts inp level s then some (inp.solve level s.iter) else none
    information := if bodyAccepts inp level s then some (mkA inp level s.iter) else none
    accepted := bodyAccepts inp level s }

/-- One execution of the do-while body (lines 250-426).  The pass stages
initial <- inc.inverse * initial and estimate <- inc * estimate (lines
260-262), evaluates the oracles, shifts LastError <- Error and
Error <- total error (lines 379-380), and tests acceptance (line 385).
On rejection both transactional poses revert and the loop will break
(lines 387-393); on acceptance the system is solved, x is replaced by the
solved increment and the iteration counter advances (lines 416-425). -/
def body [Group G] (inp : MatchInput G) (level : ℤ) (s : LoopState G) : LoopState G :=
  let inc := appliedInc inp s
  let initial1 := s.initial.stage (inc⁻¹ * s.initial.value)
  let estimate1 := s.estimate.stage (inc * s.estimate.value)
  if bodyAccepts inp level s then
    { initial := initial1
      estimate := estimate1
      inc := inc
      x := inp.solve level s.iter
      iter := s.iter + 1
      error := (inp.eval level s.iter).err
      lastError := s.error
      accept := true
      recs := s.recs ++ [bodyRec inp level s] }
  else
    { initial := initial1.revert
      estimate := estimate1.revert
      inc := inc
      x := s.x
      iter := s.iter
      error := (inp.eval level s.iter).err
      lastError := s.error
      accept := false
      recs := s.recs ++ [bodyRec inp level s] }

/-- Loop condition of the do-while (line 428):
accept, and the solved increment has a coefficient above Precision, and
the iteration budget is not exhausted. -/
def loopCond (inp : MatchInput G) (s : LoopState G) : Bool :=
  s.accept && decide (inp.precision < lpNormInf s.x) && !(iterationsExceeded inp s.iter)

/-- Inner do-while loop with explicit fuel (see the header note on fuel
adequacy; innerLoop_exit_cond shows the condition fails at the exit state
whenever maxIterations < iter + fuel). -/
def innerLoop [Group G] (inp : MatchInput G) (level : ℤ) : ℕ → LoopState G → LoopState G
  | 0, s => s
  | fuel + 1, s =>
    let s1 := body inp level s
    if loopCond inp s1 then innerLoop inp level fuel s1 else s1

/-- Termination criterion assignment (lines 430-437): three consecutive
if statements, each overwriting the previous assignment, starting from the
default-constructed value. -/
def setCriterion (inp : MatchInput G) (s : LoopState G) : TermCrit :=
  let c := TermCrit.unset
  let c := if s.accept = false then TermCrit.logLikelihoodDecreased else c
  let c := if lpNormInf s.x ≤ inp.precision then TermCrit.incrementTooSmall else c
  let c := if iterationsExceeded inp s.iter then TermCrit.iterationsExceeded else c
  c

/-- Loop state at the start of a pyramid level (lines 210-211 reset the
iteration counter and the error to the sentinel; line 239 seeds
x = inc.log(); the iteration record list of the fresh LevelStats is
empty). -/
def levelStartState (inp : MatchInput G) (gs : GlobalState G) : LoopState G :=
  { initial := gs.initial
    estimate := gs.estimate
    inc := gs.inc
    x := inp.log gs.inc
    iter := 0
    error := Err.maxVal
    lastError := gs.lastError
    accept := gs.accept
    recs := [] }

/-- Fuel supplied to the inner loop of one level; continuation requires
iter < maxIterations and every continued pass increments iter from the
reset value zero, so at most maxIterations + 1 passes can run. -/
def levelFuel (inp : MatchInput G) : ℕ := inp.maxIterations + 1

/-- Final loop state of one pyramid level. -/
def runLevelFinal [Group G] (inp : MatchInput G) (gs : GlobalState G) (level : ℤ) : LoopState G :=
  innerLoop inp level (levelFuel inp) (levelStartState inp gs)

/-- Level record assembled for one pyramid level: LevelStats fields of
lines 230-232 plus the termination criterion of lines 430-437. -/
def runLevelRec [Group G] (inp : MatchInput G) (gs : GlobalState G) (level : ℤ) : LevelRec :=
  let s := runLevelFinal inp gs level
  { id := level
    maxValidPixels := inp.maxPoints level
    validPixels := inp.validPixels level
    iterations := s.recs
    criterion := setCriterion inp s
    finalAccept := s.accept
    finalX := s.x
    finalIter := s.iter }

/-- Processing of one pyramid level: run the inner loop and carry the
function-scope state (initial, estimate, inc, accept, the last error and
the accumulated statistics) to the next level. -/
def runLevel [Group G] (inp : MatchInput G) (gs : GlobalState G) (level : ℤ) : GlobalState G :=
  let s := runLevelFinal inp gs level
  { initial := s.initial
    estimate := s.estimate
    inc := s.inc
    accept := s.accept
    lastError := s.lastError
    levels := gs.levels ++ [runLevelRec inp gs level] }

/-- Pyramid levels visited by the level loop of line 201: FirstLevel down
to LastLevel inclusive; empty when FirstLevel < LastLevel. -/
def levelsList (first last : ℤ) : List ℤ :=
  (List.range (first + 1 - last).toNat).map fun i => first - (i : ℤ)

/-- Function-scope state before the level loop (lines 142-153): when
UseInitialEstimate is false the transformation is reset to identity (line
144); the first increment inc is the given guess (line 148); initial is
constructed from inc and estimate default-constructs to identity (lines
150-151); accept starts true (line 153). -/
def initialGlobal [Group G] (inp : MatchInput G) : GlobalState G :=
  let inc0 := if inp.useInitialEstimate then inp.guess else 1
  { initial := { old := inc0, value := inc0 }
    estimate := { old := 1, value := 1 }
    inc := inc0
    accept := true
    lastError := Err.maxVal
    levels := [] }

/-- State after the whole level loop. -/
def runAllLevels [Group G] (inp : MatchInput G) : GlobalState G :=
  (levelsList inp.firstLevel inp.lastLevel).foldl (runLevel inp) (initialGlobal inp)

/-- Statistics record selected after the level loop (lines 442-443): the
last iteration record of the last level, or the second to last when the
criterion of the last level is LogLikelihoodDecreased.  The C++ index
size - 2 is a size_t subtraction: when the level holds a single record it
wraps around and the vector access is out of bounds (undefined
behaviour), modelled here as none. -/
def selectIteration (L : LevelRec) : Option IterRec :=
  if L.criterion ≠ TermCrit.logLikelihoodDecreased then
    L.iterations.get? (L.iterations.length - 1)
  else if 2 ≤ L.iterations.length then
    L.iterations.get? (L.iterations.length - 2)
  else none

/-- Fixed scale constant of line 446 (0.008 exactly, as a rational). -/
def infoScale : ℚ := 8 / 1000

/-- Result of one match call (lines 442-449).  Transformation is the
inverse of the committed estimate (line 445); Information and
LogLikelihood are read from the selected iteration record (lines
446-447) and are none when that access is undefined behaviour (empty
level loop, or the wrapped size - 2 index) or reads a field that was
never assigned on a rejected pass (EstimateInformation). -/
structure MatchResult (G : Type) where
  transformation : G
  information : Option Mat6
  logLikelihood : Option Err
  levels : List LevelRec
  success : Bool

/-- The driver DenseTracker::match (lines 136-450).  The boolean success
is initialised to true at line 140 and returned unchanged at line 449. -/
def dvoMatch [Group G] (inp : MatchInput G) : MatchResult G :=
  let gs := runAllLevels inp
  let sel := gs.levels.getLast?.bind selectIteration
  { transformation := gs.estimate.value⁻¹
    information := (sel.bind fun r => r.information).map fun A => (infoScale * infoScale) • A
    logLikelihood := sel.map fun r => errAddQ r.tll r.priorLL
    levels := gs.levels
    success := true }

/-- Trace predicate of one level: every record is accepted exactly when
its freshly recorded error strictly improves on the running error (the
argument e, the sentinel at level start), an accepted record passes its
error on as the new running error, and a rejected record is the last one
of the level. -/
def levelTraceB : Err → List IterRec → Bool
  | _, [] => true
  | e, r :: t =>
      (r.accepted == errLt r.tll e) && (if r.accepted then levelTraceB r.tll t else t.isEmpty)

section BodyLemmas

variable [Group G] (inp : MatchInput G) (level : ℤ) (s : LoopState G)

lemma body_accept : (body inp level s).accept = bodyAccepts inp level s := by
  by_cases h : bodyAccepts inp level s <;> simp [body, h]

lemma body_recs : (body inp level s).recs = s.recs ++ [bodyRec inp level s] := by
  by_cases h : bodyAccepts inp level s <;> simp [body, h]

lemma body_error : (body inp level s).error = (inp.eval level s.iter).err := by
  by_cases h : bodyAccepts inp level s <;> simp [body, h]

lemma body_iter_of_accept (h : bodyAccepts inp level s = true) :
    (body inp level s).iter = s.iter + 1 := by
  simp [body, h]

lemma body_iter_of_reject (h : bodyAccepts inp level s = false) :
    (body inp level s).iter = s.iter := by
  simp [body, h]

lemma body_estimate_of_accept (h : bodyAccepts inp level s = true) :
    (body inp level s).estimate.value = appliedInc inp s * s.estimate.value ∧
      (body inp level s).estimate.old = s.estimate.value := by
  simp [body, h, Revertable.stage]

lemma body_initial_of_accept (h : bodyAccepts inp level s = true) :
    (body inp level s).initial.value = (appliedInc inp s)⁻¹ * s.initial.value ∧
      (body inp level s).initial.old = s.initial.value := by
  simp [body, h, Revertable.stage]

lemma body_estimate_of_reject (h : bodyAccepts inp level s = false) :
    (body inp level s).estimate.value = s.estimate.value := by
  simp [body, h, Revertable.stage, Revertable.revert]

lemma body_initial_of_reject (h : bodyAccepts inp level s = false) :
    (body inp level s).initial.value = s.initial.value := by
  simp [body, h, Revertable.stage, Revertable.revert]

lemma bodyRec_accepted : (bodyRec inp level s).accepted = bodyAccepts inp level s := rfl

lemma bodyRec_tll : (bodyRec inp level s).tll = (inp.eval level s.iter).err := rfl

end BodyLemmas

section LoopLemmas

variable [Group G] (inp : MatchInput G) (level : ℤ)

lemma loopCond_true_iff (s : LoopState G) :
    loopCond inp s = true ↔
      s.accept = true ∧ inp.precision < lpNormInf s.x ∧ s.iter < inp.maxIterations := by
  simp [loopCond, iterationsExceeded, Nat.not_le, and_assoc]

lemma innerLoop_zero (s : LoopState G) : innerLoop inp level 0 s = s := rfl

lemma innerLoop_succ (fuel : ℕ) (s : LoopState G) :
    innerLoop inp level (fuel + 1) s =
      (if loopCond inp (body inp level s) then innerLoop inp level fuel (body inp level s)
       else body inp level s) := rfl

lemma innerLoop_reject_stops (fuel : ℕ) (s : LoopState G)
    (h : bodyAccepts inp level s = false) :
    innerLoop inp level (fuel + 1) s = body inp level s := by
  rw [innerLoop_succ]
  have ha : (body inp level s).accept = false := by rw [body_accept, h]
  simp [loopCond, ha]

lemma innerLoop_exit_cond (fuel : ℕ) :
    ∀ s : LoopState G, inp.maxIterations < s.iter + fuel →
      loopCond inp (innerLoop inp level fuel s) = false := by
  induction fuel with
  | zero =>
      intro s h
      rw [innerLoop_zero]
      have : iterationsExceeded inp s.iter = true := by
        simp [iterationsExceeded]; omega
      simp [loopCond, this]
  | succ fuel ih =>
      intro s h
      rw [innerLoop_succ]
      by_cases hc : loopCond inp (body inp level s) = true
      · rw [if_pos hc]
        rcases (loopCond_true_iff inp (body inp level s)).mp hc with ⟨hacc, -, hlt⟩
        have hb : bodyAccepts inp level s = true := by rwa [body_accept] at hacc
        have hit := body_iter_of_accept inp level s hb
        exact ih _ (by omega)
      · rw [if_neg hc]
        exact Bool.not_eq_true _ ▸ (by simpa using hc)

lemma innerLoop_recs_mono (fuel : ℕ) :
    ∀ s : LoopState G, s.recs.length ≤ (innerLoop inp level fuel s).recs.length := by
  induction fuel with
  | zero => intro s; rw [innerLoop_zero]
  | succ fuel ih =>
      intro s
      rw [innerLoop_succ]
      have h1 : (body inp level s).recs.length = s.recs.length + 1 := by
        rw [body_recs]; simp
      by_cases hc : loopCond inp (body inp level s) = true
      · rw [if_pos hc]
        have := ih (body inp level s)
        omega
      · simp only [Bool.not_eq_true] at hc
        rw [if_neg (by simp [hc])]
        omega

lemma innerLoop_recs_len_bound (fuel : ℕ) :
    ∀ s : LoopState G,
      (innerLoop inp level fuel s).recs.length ≤
        s.recs.length + max (inp.maxIterations - s.iter) 1 := by
  induction fuel with
  | zero =>
      intro s
      rw [innerLoop_zero]
      have : 1 ≤ max (inp.maxIterations - s.iter) 1 := le_max_right _ _
      omega
  | succ fuel ih =>
      intro s
      rw [innerLoop_succ]
      have h1 : (body inp level s).recs.length = s.recs.length + 1 := by
        rw [body_recs]; simp
      by_cases hc : loopCond inp (body inp level s) = true
      · rw [if_pos hc]
        rcases (loopCond_true_iff inp (body inp level s)).mp hc with ⟨hacc, -, hlt⟩
        have hb : bodyAccepts inp level s = true := by rwa [body_accept] at hacc
        have hit := body_iter_of_accept inp level s hb
        have hIH := ih (body inp level s)
        rw [hit] at hIH
        have e1 : max (inp.maxIterations - (s.iter + 1)) 1 = inp.maxIterations - (s.iter + 1) :=
          Nat.max_eq_left (by omega)
        have e2 : max (inp.maxIterations - s.iter) 1 = inp.maxIterations - s.iter :=
          Nat.max_eq_left (by omega)
        rw [e1] at hIH
        rw [e2]
        omega
      · simp only [Bool.not_eq_true] at hc
        rw [if_neg (by simp [hc])]
        have : 1 ≤ max (inp.maxIterations - s.iter) 1 := le_max_right _ _
        omega

lemma innerLoop_iter_le (fuel : ℕ) :
    ∀ s : LoopState G, s.iter < inp.maxIterations →
      (innerLoop inp level fuel s).iter ≤ inp.maxIterations := by
  induction fuel with
  | zero => intro s h; rw [innerLoop_zero]; omega
  | succ fuel ih =>
      intro s h
      rw [innerLoop_succ]
      by_cases hc : loopCond inp (body inp level s) = true
      · rw [if_pos hc]
        rcases (loopCond_true_iff inp (body inp level s)).mp hc with ⟨-, -, hlt⟩
        exact ih _ hlt
      · simp only [Bool.not_eq_true] at hc
        rw [if_neg (by simp [hc])]
        by_cases hb : bodyAccepts inp level s = true
        · rw [body_iter_of_accept inp level s hb]; omega
        · rw [body_iter_of_reject inp level s (by simpa using hb)]; omega

lemma innerLoop_trace (fuel : ℕ) :
    ∀ s : LoopState G, ∃ d,
      (innerLoop inp level fuel s).recs = s.recs ++ d ∧ levelTraceB s.error d = true := by
  induction fuel with
  | zero => intro s; exact ⟨[], by simp [innerLoop_zero, levelTraceB]⟩
  | succ fuel ih =>
      intro s
      rw [innerLoop_succ]
      have hr := body_recs inp level s
      have he := body_error inp level s
      have hbeq : (bodyRec inp level s).accepted = errLt (bodyRec inp level s).tll s.error := by
        rw [bodyRec_accepted, bodyRec_tll]; rfl
      by_cases hc : loopCond inp (body inp level s) = true
      · rw [if_pos hc]
        rcases (loopCond_true_iff inp (body inp level s)).mp hc with ⟨hacc, -, -⟩
        have hb : bodyAccepts inp level s = true := by rwa [body_accept] at hacc
        rcases ih (body inp level s) with ⟨d, hd, ht⟩
        refine ⟨bodyRec inp level s :: d, ?_, ?_⟩
        · rw [hd, hr]; simp
        · have hacc2 : (bodyRec inp level s).accepted = true := by
            rw [bodyRec_accepted]; exact hb
          have htll : (bodyRec inp level s).tll = (body inp level s).error := by
            rw [bodyRec_tll, he]
          rw [levelTraceB]
          rw [hacc2, ← hbeq, hacc2, htll]
          simp [ht]
      · rw [if_neg hc]
        refine ⟨[bodyRec inp level s], hr, ?_⟩
        rw [levelTraceB]
        by_cases hb : (bodyRec inp level s).accepted = true <;> simp [levelTraceB, hb, ← hbeq]

lemma innerLoop_head (fuel : ℕ) (s : LoopState G) (h0 : s.recs = []) :
    ((innerLoop inp level (fuel + 1) s).recs).head? = some (bodyRec inp level s) := by
  rw [innerLoop_succ]
  have hr := body_recs inp level s
  rw [h0] at hr
  by_cases hc : loopCond inp (body inp level s) = true
  · rw [if_pos hc]
    rcases innerLoop_trace inp level fuel (body inp level s) with ⟨d, hd, -⟩
    rw [hd, hr]
    simp
  · rw [if_neg hc, hr]
    simp

lemma innerLoop_recs_len_pos (fuel : ℕ) (s : LoopState G) :
    s.recs.length + 1 ≤ (innerLoop inp level (fuel + 1) s).recs.length := by
  rw [innerLoop_succ]
  have h1 : (body inp level s).recs.length = s.recs.length + 1 := by
    rw [body_recs]; simp
  by_cases hc : loopCond inp (body inp level s) = true
  · rw [if_pos hc]
    have := innerLoop_recs_mono inp level fuel (body inp level s)
    omega
  · rw [if_neg hc]
    omega

end LoopLemmas

section LevelLemmas

variable [Group G] (inp : MatchInput G)

lemma setCriterion_of_exit (s : LoopState G) (h : loopCond inp s = false) :
    setCriterion inp s =
      (if iterationsExceeded inp s.iter then TermCrit.iterationsExceeded
       else if lpNormInf s.x ≤ inp.precision then TermCrit.incrementTooSmall
       else TermCrit.logLikelihoodDecreased) := by
  have hcond : ¬(s.accept = true ∧ inp.precision < lpNormInf s.x ∧ s.iter < inp.maxIterations) := by
    rw [← loopCond_true_iff inp s]
    simp [h]
  by_cases h1 : iterationsExceeded inp s.iter = true
  · simp [setCriterion, h1]
  · by_cases h2 : lpNormInf s.x ≤ inp.precision
    · simp [setCriterion, h1, h2]
    · have h3 : s.accept = false := by
        rcases Bool.eq_false_or_eq_true s.accept with ht | hf
        · exfalso
          refine hcond ⟨ht, lt_of_not_le h2, ?_⟩
          simpa [iterationsExceeded, Nat.not_le] using h1
        · exact hf
      simp [setCriterion, h1, h2, h3]

lemma setCriterion_ne_unset (s : LoopState G) (h : loopCond inp s = false) :
    setCriterion inp s ≠ TermCrit.unset := by
  rw [setCriterion_of_exit inp s h]
  split_ifs <;> simp

lemma runLevelFinal_exit (gs : GlobalState G) (level : ℤ) :
    loopCond inp (runLevelFinal inp gs level) = false := by
  unfold runLevelFinal
  apply innerLoop_exit_cond
  have h0 : (levelStartState inp gs).iter = 0 := rfl
  rw [h0]
  simp [levelFuel]

lemma runLevelRec_trace (gs : GlobalState G) (level : ℤ) :
    levelTraceB Err.maxVal (runLevelRec inp gs level).iterations = true := by
  rcases innerLoop_trace inp level (levelFuel inp) (levelStartState inp gs) with ⟨d, hd, ht⟩
  have hit : (runLevelRec inp gs level).iterations = d := by
    show (runLevelFinal inp gs level).recs = d
    unfold runLevelFinal
    rw [hd]
    rfl
  rw [hit]
  exact ht

lemma runLevelRec_len_le (gs : GlobalState G) (level : ℤ) (h : 1 ≤ inp.maxIterations) :
    (runLevelRec inp gs level).iterations.length ≤ inp.maxIterations := by
  have hb := innerLoop_recs_len_bound inp level (levelFuel inp) (levelStartState inp gs)
  have h0 : (levelStartState inp gs).recs.length = 0 := rfl
  have h1 : (levelStartState inp gs).iter = 0 := rfl
  rw [h0, h1] at hb
  have e2 : max (inp.maxIterations - (0:ℕ)) 1 = inp.maxIterations := by
    rw [Nat.sub_zero]
    exact Nat.max_eq_left h
  rw [e2] at hb
  show (runLevelFinal inp gs level).recs.length ≤ inp.maxIterations
  unfold runLevelFinal
  omega

lemma runLevelRec_len_pos (gs : GlobalState G) (level : ℤ) :
    1 ≤ (runLevelRec inp gs level).iterations.length := by
  have hp := innerLoop_recs_len_pos inp level inp.maxIterations (levelStartState inp gs)
  have h0 : (levelStartState inp gs).recs.length = 0 := rfl
  rw [h0] at hp
  show 1 ≤ (runLevelFinal inp gs level).recs.length
  unfold runLevelFinal levelFuel
  omega

lemma runLevelRec_finalIter_le (gs : GlobalState G) (level : ℤ) (h : 1 ≤ inp.maxIterations) :
    (runLevelRec inp gs level).finalIter ≤ inp.maxIterations := by
  have h1 : (levelStartState inp gs).iter = 0 := rfl
  have := innerLoop_iter_le inp level (levelFuel inp) (levelStartState inp gs) (by omega)
  exact this

lemma runLevelRec_head (gs : GlobalState G) (level : ℤ) :
    ((runLevelRec inp gs level).iterations).head? =
      some (bodyRec inp level (levelStartState inp gs)) := by
  show ((runLevelFinal inp gs level).recs).head? = _
  unfold runLevelFinal levelFuel
  exact innerLoop_head inp level inp.maxIterations (levelStartState inp gs) rfl

lemma runLevelRec_criterion_priority (gs : GlobalState G) (level : ℤ) :
    (runLevelRec inp gs level).criterion =
      (if iterationsExceeded inp (runLevelRec inp gs level).finalIter then
        TermCrit.iterationsExceeded
       else if lpNormInf (runLevelRec inp gs level).finalX ≤ inp.precision then
        TermCrit.incrementTooSmall
       else TermCrit.logLikelihoodDecreased) := by
  show setCriterion inp (runLevelFinal inp gs level) = _
  exact setCriterion_of_exit inp _ (runLevelFinal_exit inp gs level)

lemma runLevelRec_criterion_ne_unset (gs : GlobalState G) (level : ℤ) :
    (runLevelRec inp gs level).criterion ≠ TermCrit.unset := by
  show setCriterion inp (runLevelFinal inp gs level) ≠ _
  exact setCriterion_ne_unset inp _ (runLevelFinal_exit inp gs level)

lemma levels_foldl_mem :
    ∀ (lvls : List ℤ) (gs : GlobalState G) (L : LevelRec),
      L ∈ (lvls.foldl (runLevel inp) gs).levels →
      L ∈ gs.levels ∨ ∃ gs2 lvl, L = runLevelRec inp gs2 lvl := by
  intro lvls
  induction lvls with
  | nil => intro gs L h; exact Or.inl h
  | cons a t ih =>
      intro gs L h
      rcases ih (runLevel inp gs a) L h with h1 | h2
      · have h1b : L ∈ gs.levels ++ [runLevelRec inp gs a] := h1
        rcases List.mem_append.mp h1b with hL | hL
        · exact Or.inl hL
        · exact Or.inr ⟨gs, a, by simpa using hL⟩
      · exact Or.inr h2

lemma mem_runAllLevels {L : LevelRec} (h : L ∈ (runAllLevels inp).levels) :
    ∃ gs lvl, L = runLevelRec inp gs lvl := by
  rcases levels_foldl_mem inp _ _ _ h with h1 | h2
  · simp [initialGlobal] at h1
  · exact h2

lemma dvoMatch_levels : (dvoMatch inp).levels = (runAllLevels inp).levels := rfl

lemma mem_dvoMatch_levels {L : LevelRec} (h : L ∈ (dvoMatch inp).levels) :
    ∃ gs lvl, L = runLevelRec inp gs lvl :=
  mem_runAllLevels inp (by rwa [dvoMatch_levels] at h)

end LevelLemmas

section ConcreteInstances

/-- Concrete pose group used to evaluate the model on explicit inputs:
the rationals under addition written multiplicatively.  The claims under
study never depend on the pose group beyond its group structure and the
exp and log maps supplied in the input. -/
abbrev GW : Type := Multiplicative ℚ

/-- Concrete exponential for GW: read off the first coefficient. -/
def cExp : Vec6 → GW := fun v => Multiplicative.ofAdd (v 0)

/-- Concrete logarithm for GW: the constant six-vector, a section of cExp
(cExp (cLog g) = g holds definitionally). -/
def cLog : GW → Vec6 := fun g _ => Multiplicative.toAdd g

/-- Constant six-vector. -/
def cV (q : ℚ) : Vec6 := fun _ => q

/-- Default level record used only to spell out list accesses in closed
witness statements. -/
def dfltLevel : LevelRec :=
  { id := 0, maxValidPixels := 0, validPixels := 0, iterations := [],
    criterion := TermCrit.unset, finalAccept := true, finalX := cV 0, finalIter := 0 }

/-- Default iteration record used only to spell out list accesses in
closed witness statements. -/
def dfltIter : IterRec :=
  { id := 0, validConstraints := 0, tll := Err.nan, priorLL := 0, weights := [],
    increment := none, information := none, accepted := false }

/-- Concrete input with two pyramid levels: on level 1 the second pass is
rejected, on level 0 the third pass is rejected; exercises the accepted
and rejected paths of the driver. -/
def cInp1 : MatchInput GW :=
  { firstLevel := 1
    lastLevel := 0
    maxIterations := 3
    precision := 1/100
    mu := 0
    useInitialEstimate := true
    guess := Multiplicative.ofAdd (1 : ℚ)
    exp := cExp
    log := cLog
    eval := fun level k =>
      if level = 1 then (if k = 0 then ⟨4, Err.val 10⟩ else ⟨4, Err.val 20⟩)
      else (if k = 0 then ⟨5, Err.val 9⟩ else if k = 1 then ⟨5, Err.val 6⟩ else ⟨5, Err.val 6⟩)
    weightsAt := fun _ _ => [1/2, 1/2, 1/2, 1/2, 1/2]
    lsA := fun _ _ => fun _ _ => 0
    solve := fun _ _ => cV 2
    maxPoints := fun _ => 10
    validPixels := fun _ => 5 }

end ConcreteInstances

section ClaimHelpers

lemma mem_of_getLast_some {α : Type} {l : List α} {a : α} (h : l.getLast? = some a) :
    a ∈ l := by
  cases l with
  | nil => simp at h
  | cons x t =>
      have hne : x :: t ≠ [] := by simp
      rw [List.getLast?_eq_getLast_of_ne_nil hne, Option.some_inj] at h
      rw [← h]
      exact List.getLast_mem hne

lemma levelTraceB_chain :
    ∀ (l : List IterRec) (e : Err), levelTraceB e l = true →
      List.Chain (fun a b => errLt b a = true) e
        ((l.filter fun r => r.accepted).map fun r => r.tll) := by
  intro l
  induction l with
  | nil => intro e _; simp
  | cons r t ih =>
      intro e h
      rw [levelTraceB, Bool.and_eq_true, beq_iff_eq] at h
      rcases h with ⟨hacc, hrest⟩
      by_cases hr : r.accepted = true
      · rw [hr] at hrest
        simp only [if_true] at hrest
        have hfilter : ((r :: t).filter fun x => x.accepted) = r :: (t.filter fun x => x.accepted) := by
          simp [List.filter_cons, hr]
        rw [hfilter, List.map_cons]
        exact List.Chain.cons (by rw [← hacc, hr]) (ih r.tll hrest)
      · have hrf : r.accepted = false := by simpa using hr
        rw [hrf] at hrest
        simp only [Bool.false_eq_true, if_false, List.isEmpty_iff] at hrest
        subst hrest
        simp [List.filter_cons, hrf]

end ClaimHelpers

section Claims

/-- C1: inside the inner loop of match the staged pose updates
(initial and estimate) are committed exactly when the fresh total error
is strictly below the previous error, starting from the sentinel at level
start; a rejected pass reverts both transactional poses to their
pre-pass committed values and ends the level at that record; hence the
recorded error sequence over the accepted records of any level is
strictly decreasing. -/
theorem C1_accept_commit_strict_decrease {G : Type} [Group G] (inp : MatchInput G) :
    (∀ L ∈ (dvoMatch inp).levels,
        levelTraceB Err.maxVal L.iterations = true
        ∧ List.Chain (fun a b => errLt b a = true) Err.maxVal
            ((L.iterations.filter fun r => r.accepted).map fun r => r.tll))
    ∧ (∀ (level : ℤ) (s : LoopState G),
        (body inp level s).accept = errLt (inp.eval level s.iter).err s.error
        ∧ ((body inp level s).accept = true →
            (body inp level s).estimate.value = appliedInc inp s * s.estimate.value
            ∧ (body inp level s).initial.value = (appliedInc inp s)⁻¹ * s.initial.value)
        ∧ ((body inp level s).accept = false →
            (body inp level s).estimate.value = s.estimate.value
            ∧ (body inp level s).initial.value = s.initial.value)) := by
  constructor
  · intro L hL
    rcases mem_dvoMatch_levels inp hL with ⟨gs, lvl, hEq⟩
    subst hEq
    have ht := runLevelRec_trace inp gs lvl
    exact ⟨ht, levelTraceB_chain _ _ ht⟩
  · intro level s
    refine ⟨by rw [body_accept]; rfl, ?_, ?_⟩
    · intro h
      have hb : bodyAccepts inp level s = true := by rwa [body_accept] at h
      exact ⟨(body_estimate_of_accept inp level s hb).1, (body_initial_of_accept inp level s hb).1⟩
    · intro h
      have hb : bodyAccepts inp level s = false := by rwa [body_accept] at h
      exact ⟨body_estimate_of_reject inp level s hb, body_initial_of_reject inp level s hb⟩

/-- C1 witness: the trace property and the strict error decrease evaluated
on the concrete two-level input cInp1. -/
theorem C1_accept_commit_strict_decrease_witness :
    levelTraceB Err.maxVal ((dvoMatch cInp1).levels.getD 0 dfltLevel).iterations = true
    ∧ List.Chain (fun a b => errLt b a = true) Err.maxVal
        ((((dvoMatch cInp1).levels.getD 0 dfltLevel).iterations.filter
            fun r => r.accepted).map fun r => r.tll) :=
  (C1_accept_commit_strict_decrease cInp1).1 ((dvoMatch cInp1).levels.getD 0 dfltLevel)
    (by with_unfolding_all decide)

/-- C6: the inner loop continues exactly while the previous pass was
accepted, the solved increment has max magnitude above Precision and the
iteration counter is below MaxIterationsPerLevel; consequently, when the
configuration allows at least one iteration, no level records more than
MaxIterationsPerLevel passes nor an iteration counter above it. -/
theorem C6_iteration_bound {G : Type} [Group G] (inp : MatchInput G) :
    (∀ (level : ℤ) (fuel : ℕ) (s : LoopState G),
        innerLoop inp level (fuel + 1) s =
          (if loopCond inp (body inp level s) then innerLoop inp level fuel (body inp level s)
           else body inp level s)
        ∧ (loopCond inp s = true ↔
            s.accept = true ∧ inp.precision < lpNormInf s.x ∧ s.iter < inp.maxIterations))
    ∧ (1 ≤ inp.maxIterations →
        ∀ L ∈ (dvoMatch inp).levels,
          L.iterations.length ≤ inp.maxIterations ∧ L.finalIter ≤ inp.maxIterations) := by
  constructor
  · intro level fuel s
    exact ⟨innerLoop_succ inp level fuel s, loopCond_true_iff inp s⟩
  · intro h L hL
    rcases mem_dvoMatch_levels inp hL with ⟨gs, lvl, hEq⟩
    subst hEq
    exact ⟨runLevelRec_len_le inp gs lvl h, runLevelRec_finalIter_le inp gs lvl h⟩

/-- C6 witness: the iteration bounds evaluated on cInp1, whose budget is
three iterations per level. -/
theorem C6_iteration_bound_witness :
    ((dvoMatch cInp1).levels.getD 1 dfltLevel).iterations.length ≤ cInp1.maxIterations
    ∧ ((dvoMatch cInp1).levels.getD 1 dfltLevel).finalIter ≤ cInp1.maxIterations :=
  (C6_iteration_bound cInp1).2 (by decide) ((dvoMatch cInp1).levels.getD 1 dfltLevel)
    (by with_unfolding_all decide)

/-- C7: on the first pass of every level the weight buffer is filled with
the constant one for every point whose residual was computed, whatever
the configured estimators (the weight oracle of the input is arbitrary
and is consulted only from the second pass on). -/
theorem C7_first_iteration_weights {G : Type} [Group G] (inp : MatchInput G) :
    ∀ L ∈ (dvoMatch inp).levels, ∀ r : IterRec, L.iterations.head? = some r →
      r.weights = List.replicate r.validConstraints 1 ∧ r.id = 0 := by
  intro L hL r hr
  rcases mem_dvoMatch_levels inp hL with ⟨gs, lvl, hEq⟩
  subst hEq
  rw [runLevelRec_head inp gs lvl, Option.some_inj] at hr
  rw [← hr]
  constructor
  · show (bodyRec inp lvl (levelStartState inp gs)).weights =
      List.replicate (bodyRec inp lvl (levelStartState inp gs)).validConstraints 1
    simp [bodyRec, levelStartState, isFirstIterationOnLevel]
  · rfl

/-- C7 witness: the first pass of level 1 of cInp1 carries unit weights
for all four valid points. -/
theorem C7_first_iteration_weights_witness :
    (((dvoMatch cInp1).levels.getD 0 dfltLevel).iterations.getD 0 dfltIter).weights =
        List.replicate
          (((dvoMatch cInp1).levels.getD 0 dfltLevel).iterations.getD 0 dfltIter).validConstraints 1
    ∧ (((dvoMatch cInp1).levels.getD 0 dfltLevel).iterations.getD 0 dfltIter).id = 0 :=
  C7_first_iteration_weights cInp1 ((dvoMatch cInp1).levels.getD 0 dfltLevel)
    (by with_unfolding_all decide)
    (((dvoMatch cInp1).levels.getD 0 dfltLevel).iterations.getD 0 dfltIter)
    (by with_unfolding_all decide)

/-- C8: the driver returns success equal to true on every input; no code
path modifies the flag initialised at line 140. -/
theorem C8_success_always_true {G : Type} [Group G] (inp : MatchInput G) :
    (dvoMatch inp).success = true := rfl

end Claims

section ClaimC2

/-- Concrete input with a single level on which the very first pass is
rejected (NaN error from zero valid residuals) while the seeded increment
is already below Precision: two termination conditions hold at once. -/
def cInp2 : MatchInput GW :=
  { firstLevel := 0
    lastLevel := 0
    maxIterations := 3
    precision := 1/100
    mu := 0
    useInitialEstimate := false
    guess := Multiplicative.ofAdd (9 : ℚ)
    exp := cExp
    log := cLog
    eval := fun _ _ => ⟨0, Err.nan⟩
    weightsAt := fun _ _ => []
    lsA := fun _ _ => fun _ _ => 0
    solve := fun _ _ => cV 2
    maxPoints := fun _ => 10
    validPixels := fun _ => 0 }

/-- C2 counterexample: on cInp2 the sole pass of the level is rejected
(the accept flag is false at criterion assignment time) and the increment
convergence condition holds as well, yet the recorded criterion is
IncrementTooSmall, not LogLikelihoodDecreased: the later assignment of
lines 433-434 overrides the earlier one of lines 430-431, which is the
opposite of the priority the claim states. -/
theorem C2_priority_counterexample :
    ((dvoMatch cInp2).levels.map fun L =>
        (L.finalAccept, L.iterations.map fun r => r.accepted, L.criterion)) =
      [(false, [false], TermCrit.incrementTooSmall)]
    ∧ lpNormInf ((dvoMatch cInp2).levels.getD 0 dfltLevel).finalX ≤ cInp2.precision := by
  constructor
  · with_unfolding_all decide
  · with_unfolding_all decide

/-- C2 amended: every processed level records exactly one of the three
termination reasons (never the default), and the recorded one is chosen
by the override order iterations-exhausted over increment-converged over
rejected-by-likelihood, since each of the three consecutive if
statements of lines 430-437 overwrites the previous assignment. -/
theorem C2_termination_reason_amended {G : Type} [Group G] (inp : MatchInput G) :
    ∀ L ∈ (dvoMatch inp).levels,
      L.criterion ≠ TermCrit.unset
      ∧ L.criterion =
          (if iterationsExceeded inp L.finalIter then TermCrit.iterationsExceeded
           else if lpNormInf L.finalX ≤ inp.precision then TermCrit.incrementTooSmall
           else TermCrit.logLikelihoodDecreased) := by
  intro L hL
  rcases mem_dvoMatch_levels inp hL with ⟨gs, lvl, hEq⟩
  subst hEq
  exact ⟨runLevelRec_criterion_ne_unset inp gs lvl, runLevelRec_criterion_priority inp gs lvl⟩

/-- C2 amended witness: the override characterisation evaluated on the
level of cInp2. -/
theorem C2_termination_reason_amended_witness :
    ((dvoMatch cInp2).levels.getD 0 dfltLevel).criterion ≠ TermCrit.unset
    ∧ ((dvoMatch cInp2).levels.getD 0 dfltLevel).criterion =
        (if iterationsExceeded cInp2 ((dvoMatch cInp2).levels.getD 0 dfltLevel).finalIter then
          TermCrit.iterationsExceeded
         else if lpNormInf ((dvoMatch cInp2).levels.getD 0 dfltLevel).finalX ≤ cInp2.precision then
          TermCrit.incrementTooSmall
         else TermCrit.logLikelihoodDecreased) :=
  C2_termination_reason_amended cInp2 ((dvoMatch cInp2).levels.getD 0 dfltLevel)
    (by with_unfolding_all decide)

end ClaimC2

section ClaimC3

lemma dvoMatch_fields_of_sel [Group G] (inp : MatchInput G) (L : LevelRec) (r : IterRec)
    (hglast : (runAllLevels inp).levels.getLast? = some L)
    (hsel : selectIteration L = some r) :
    (dvoMatch inp).information = r.information.map (fun A => (infoScale * infoScale) • A)
    ∧ (dvoMatch inp).logLikelihood = some (errAddQ r.tll r.priorLL) := by
  constructor <;> simp [dvoMatch, hglast, hsel]

/-- C3: after the level loop the result fields come from the iteration
record selected on the last level: the second to last record when that
level recorded LogLikelihoodDecreased, otherwise the last one;
Transformation is the inverse of the committed estimate,
Information is the selected EstimateInformation scaled by the square of
the fixed constant 0.008, and LogLikelihood is the selected
TDistributionLogLikelihood plus PriorLogLikelihood. -/
theorem C3_result_population {G : Type} [Group G] (inp : MatchInput G) (L : LevelRec)
    (h : (dvoMatch inp).levels.getLast? = some L) :
    (dvoMatch inp).transformation = ((runAllLevels inp).estimate.value)⁻¹
    ∧ (L.criterion ≠ TermCrit.logLikelihoodDecreased →
        ∀ r : IterRec, L.iterations.getLast? = some r →
          (dvoMatch inp).information = r.information.map (fun A => (infoScale * infoScale) • A)
          ∧ (dvoMatch inp).logLikelihood = some (errAddQ r.tll r.priorLL))
    ∧ (L.criterion = TermCrit.logLikelihoodDecreased → 2 ≤ L.iterations.length →
        ∀ r : IterRec, L.iterations.get? (L.iterations.length - 2) = some r →
          (dvoMatch inp).information = r.information.map (fun A => (infoScale * infoScale) • A)
          ∧ (dvoMatch inp).logLikelihood = some (errAddQ r.tll r.priorLL)) := by
  have hglast : (runAllLevels inp).levels.getLast? = some L := h
  refine ⟨rfl, ?_, ?_⟩
  · intro hc r hr
    have hsel : selectIteration L = some r := by
      rw [selectIteration, if_pos hc, ← List.getLast?_eq_get?]
      exact hr
    exact dvoMatch_fields_of_sel inp L r hglast hsel
  · intro hc hlen r hr
    have hsel : selectIteration L = some r := by
      rw [selectIteration, if_neg (by simp [hc]), if_pos hlen]
      exact hr
    exact dvoMatch_fields_of_sel inp L r hglast hsel

/-- C3 witness: on cInp1 the last level terminates by rejection with
three records, so the result fields come from its second to last
(accepted) record. -/
theorem C3_result_population_witness :
    (dvoMatch cInp1).information =
        ((((dvoMatch cInp1).levels.getD 1 dfltLevel).iterations.getD 1 dfltIter).information.map
          fun A => (infoScale * infoScale) • A)
    ∧ (dvoMatch cInp1).logLikelihood =
        some (errAddQ (((dvoMatch cInp1).levels.getD 1 dfltLevel).iterations.getD 1 dfltIter).tll
          (((dvoMatch cInp1).levels.getD 1 dfltLevel).iterations.getD 1 dfltIter).priorLL) :=
  (C3_result_population cInp1 ((dvoMatch cInp1).levels.getD 1 dfltLevel)
      (by with_unfolding_all decide)).2.2
    (by with_unfolding_all decide)
    (by with_unfolding_all decide)
    (((dvoMatch cInp1).levels.getD 1 dfltLevel).iterations.getD 1 dfltIter)
    (by with_unfolding_all decide)

end ClaimC3

section DegenerateRuns

variable [Group G] (inp : MatchInput G)

/-- Under the kernel behaviour the specification prescribes for zero
valid points (section 7: treat as acceptance failure; modelled as a NaN
error, which every IEEE comparison rejects), the first pass of any level
is rejected. -/
lemma deg_bodyAccepts (hev : ∀ (level : ℤ) (k : ℕ), inp.eval level k = ⟨0, Err.nan⟩)
    (gs : GlobalState G) (lvl : ℤ) :
    bodyAccepts inp lvl (levelStartState inp gs) = false := by
  show errLt (inp.eval lvl (levelStartState inp gs).iter).err (levelStartState inp gs).error = false
  rw [hev]
  rfl

lemma deg_runLevelFinal (hev : ∀ (level : ℤ) (k : ℕ), inp.eval level k = ⟨0, Err.nan⟩)
    (gs : GlobalState G) (lvl : ℤ) :
    runLevelFinal inp gs lvl = body inp lvl (levelStartState inp gs) := by
  show innerLoop inp lvl (levelFuel inp) (levelStartState inp gs) = _
  exact innerLoop_reject_stops inp lvl inp.maxIterations _ (deg_bodyAccepts inp hev gs lvl)

lemma deg_estimate_fold (hev : ∀ (level : ℤ) (k : ℕ), inp.eval level k = ⟨0, Err.nan⟩) :
    ∀ (lvls : List ℤ) (gs : GlobalState G),
      ((lvls.foldl (runLevel inp) gs).estimate).value = gs.estimate.value := by
  intro lvls
  induction lvls with
  | nil => intro gs; rfl
  | cons a t ih =>
      intro gs
      rw [List.foldl_cons, ih]
      show (runLevelFinal inp gs a).estimate.value = gs.estimate.value
      rw [deg_runLevelFinal inp hev gs a]
      exact body_estimate_of_reject inp a _ (deg_bodyAccepts inp hev gs a)

end DegenerateRuns

section ClaimC4

/-- Concrete input with one level, no valid point anywhere (NaN error)
and a non-identity initial guess whose logarithm exceeds Precision. -/
def cInp4 : MatchInput GW :=
  { firstLevel := 0
    lastLevel := 0
    maxIterations := 3
    precision := 1/100
    mu := 0
    useInitialEstimate := true
    guess := Multiplicative.ofAdd (5 : ℚ)
    exp := cExp
    log := cLog
    eval := fun _ _ => ⟨0, Err.nan⟩
    weightsAt := fun _ _ => []
    lsA := fun _ _ => fun _ _ => 0
    solve := fun _ _ => cV 2
    maxPoints := fun _ => 10
    validPixels := fun _ => 0 }

/-- C4 counterexample: with no valid point anywhere and UseInitialEstimate
set, the iteration counter stays at zero but the returned pose is the
identity, not the initial guess: the staged application of the guess is
reverted by the rejected first pass and line 445 overwrites
Result.Transformation with the inverse of the never-committed estimate. -/
theorem C4_zero_points_counterexample :
    cInp4.useInitialEstimate = true
    ∧ (dvoMatch cInp4).transformation ≠ cInp4.guess
    ∧ ((dvoMatch cInp4).levels.map fun L =>
        (L.finalIter, L.iterations.map fun r => (r.accepted, r.validConstraints))) =
      [(0, [(false, 0)])] := by
  refine ⟨rfl, ?_, ?_⟩
  · with_unfolding_all decide
  · with_unfolding_all decide

/-- C4 amended: when no level yields a valid point (modelled per section 7
of the specification as a NaN error with zero valid constraints), every
level runs a single rejected pass with iteration counter zero and zero
recorded ValidConstraints, the returned pose is the identity regardless
of the guess, and success stays true. -/
theorem C4_zero_points_amended {G : Type} [Group G] (inp : MatchInput G)
    (hev : ∀ (level : ℤ) (k : ℕ), inp.eval level k = ⟨0, Err.nan⟩) :
    (∀ L ∈ (dvoMatch inp).levels,
        L.finalIter = 0 ∧ L.iterations.length = 1
        ∧ ∀ r ∈ L.iterations, r.accepted = false ∧ r.validConstraints = 0)
    ∧ (dvoMatch inp).transformation = 1
    ∧ (dvoMatch inp).success = true := by
  refine ⟨?_, ?_, rfl⟩
  · intro L hL
    rcases mem_dvoMatch_levels inp hL with ⟨gs, lvl, hEq⟩
    subst hEq
    have hb := deg_bodyAccepts inp hev gs lvl
    have hfin := deg_runLevelFinal inp hev gs lvl
    refine ⟨?_, ?_, ?_⟩
    · show (runLevelFinal inp gs lvl).iter = 0
      rw [hfin, body_iter_of_reject inp lvl _ hb]
      rfl
    · show (runLevelFinal inp gs lvl).recs.length = 1
      rw [hfin, body_recs]
      rfl
    · intro r hr
      have hr2 : r ∈ (runLevelFinal inp gs lvl).recs := hr
      rw [hfin, body_recs] at hr2
      have hrEq : r = bodyRec inp lvl (levelStartState inp gs) := by
        simpa [levelStartState] using hr2
      rw [hrEq]
      constructor
      · show bodyAccepts inp lvl (levelStartState inp gs) = false
        exact hb
      · show (inp.eval lvl (levelStartState inp gs).iter).n = 0
        rw [hev]
  · show ((runAllLevels inp).estimate.value)⁻¹ = 1
    have h2 : (runAllLevels inp).estimate.value = 1 := by
      show ((levelsList inp.firstLevel inp.lastLevel).foldl (runLevel inp)
        (initialGlobal inp)).estimate.value = 1
      rw [deg_estimate_fold inp hev]
      rfl
    rw [h2, inv_one]

/-- C4 amended witness: evaluated on cInp4. -/
theorem C4_zero_points_amended_witness :
    ((dvoMatch cInp4).levels.getD 0 dfltLevel).finalIter = 0
    ∧ (dvoMatch cInp4).transformation = 1 :=
  ⟨((C4_zero_points_amended cInp4 (fun _ _ => rfl)).1
      ((dvoMatch cInp4).levels.getD 0 dfltLevel) (by with_unfolding_all decide)).1,
   (C4_zero_points_amended cInp4 (fun _ _ => rfl)).2.1⟩

end ClaimC4

section ClaimC5

/-- Concrete input on which the accumulated system matrix is identically
zero (rank deficient) at every pass: mu is zero and the ls.A oracle
returns the zero matrix, yet errors keep improving for two passes. -/
def cInp5 : MatchInput GW :=
  { firstLevel := 0
    lastLevel := 0
    maxIterations := 5
    precision := 1/100
    mu := 0
    useInitialEstimate := false
    guess := Multiplicative.ofAdd (9 : ℚ)
    exp := cExp
    log := cLog
    eval := fun _ k => if k = 0 then ⟨6, Err.val 10⟩ else if k = 1 then ⟨6, Err.val 7⟩
      else ⟨6, Err.val 100⟩
    weightsAt := fun _ _ => [1, 1, 1, 1, 1, 1]
    lsA := fun _ _ => fun _ _ => 0
    solve := fun _ _ => cV 1
    maxPoints := fun _ => 10
    validPixels := fun _ => 6 }

/-- Loop state taken from the third pass of cInp5, at which the freshly
evaluated error 100 fails to improve on the running error 7. -/
def cState5 : LoopState GW :=
  { initial := { old := 1, value := 1 }
    estimate := { old := 1, value := 1 }
    inc := 1
    x := cV 1
    iter := 2
    error := Err.val 7
    lastError := Err.val 10
    accept := true
    recs := [] }

/-- C5 counterexample: on cInp5 the system matrix recorded at the first
pass is singular (its determinant is zero), yet the level does not
terminate there and records no rejection for it: the driver solves the
system unconditionally (lines 416-418) and two further passes run, the
second of which is accepted.  Degeneracy of A is never detected nor
converted into a negative acceptance. -/
theorem C5_singular_counterexample :
    ((dvoMatch cInp5).levels.map fun L =>
        (L.iterations.length, L.iterations.map fun r => (r.accepted, r.information.isSome))) =
      [(3, [(true, true), (true, true), (false, false)])]
    ∧ (((dvoMatch cInp5).levels.getD 0 dfltLevel).iterations.getD 0 dfltIter).information =
        some (mkA cInp5 0 0)
    ∧ Matrix.det (Matrix.of (mkA cInp5 0 0)) = 0 := by
  refine ⟨?_, ?_, ?_⟩
  · with_unfolding_all decide
  · with_unfolding_all decide
  · have hz : Matrix.of (mkA cInp5 0 0) = (0 : Matrix (Fin 6) (Fin 6) ℚ) := by
      ext i j
      simp [mkA, cInp5, idMat]
    rw [hz]
    simp

/-- C5 amended: the driver never inspects the system matrix: acceptance
of a pass is exactly the error comparison, and only a failed comparison
terminates the level, reverting both transactional poses to their
committed values, so that a degenerate solve leaves the committed pose
untouched exactly when the error evaluated at its staged pose fails to
improve. -/
theorem C5_degenerate_amended {G : Type} [Group G] (inp : MatchInput G) (level : ℤ)
    (s : LoopState G) :
    ((body inp level s).accept = errLt (inp.eval level s.iter).err s.error)
    ∧ ((body inp level s).accept = false →
        (body inp level s).estimate.value = s.estimate.value
        ∧ (body inp level s).initial.value = s.initial.value
        ∧ ∀ fuel : ℕ, innerLoop inp level (fuel + 1) s = body inp level s) := by
  constructor
  · rw [body_accept]; rfl
  · intro hrej
    have hb : bodyAccepts inp level s = false := by rwa [body_accept] at hrej
    exact ⟨body_estimate_of_reject inp level s hb, body_initial_of_reject inp level s hb,
      fun fuel => innerLoop_reject_stops inp level fuel s hb⟩

/-- C5 amended witness: at the rejecting pass of cInp5 the committed
estimate is preserved and the loop stops at once. -/
theorem C5_degenerate_amended_witness :
    (body cInp5 0 cState5).estimate.value = cState5.estimate.value
    ∧ innerLoop cInp5 0 1 cState5 = body cInp5 0 cState5 :=
  ⟨((C5_degenerate_amended cInp5 0 cState5).2 (by with_unfolding_all decide)).1,
   ((C5_degenerate_amended cInp5 0 cState5).2 (by with_unfolding_all decide)).2.2 0⟩

end ClaimC5

section ClaimC9

/-- Concrete input with one level, no valid point (NaN error) and a guess
whose logarithm exceeds Precision, so that the level records a single
rejected pass under the LogLikelihoodDecreased criterion. -/
def cInp9 : MatchInput GW :=
  { firstLevel := 0
    lastLevel := 0
    maxIterations := 3
    precision := 1/100
    mu := 0
    useInitialEstimate := true
    guess := Multiplicative.ofAdd (3 : ℚ)
    exp := cExp
    log := cLog
    eval := fun _ _ => ⟨0, Err.nan⟩
    weightsAt := fun _ _ => []
    lsA := fun _ _ => fun _ _ => 0
    solve := fun _ _ => cV 2
    maxPoints := fun _ => 10
    validPixels := fun _ => 0 }

/-- C9 counterexample: the final level of cInp9 records the
LogLikelihoodDecreased criterion with a single iteration record, so the
size - 2 access of line 443 wraps around and is out of bounds (modelled
as none): a non-improving first pass of the final level is reachable. -/
theorem C9_oob_counterexample :
    ((dvoMatch cInp9).levels.getLast?).map
        (fun L => (L.criterion, L.iterations.length, selectIteration L)) =
      some (TermCrit.logLikelihoodDecreased, 1, none) := by
  with_unfolding_all decide

/-- C9 amended: the statistics lookup of line 443 is in bounds exactly
when the final level either recorded a criterion other than
LogLikelihoodDecreased (then the last record is read, and every processed
level has at least one record) or holds at least two records; a
first-pass rejection of the final level makes it out of bounds. -/
theorem C9_lookup_bounds_amended {G : Type} [Group G] (inp : MatchInput G) (L : LevelRec)
    (h : (dvoMatch inp).levels.getLast? = some L) :
    ((selectIteration L).isSome = true ↔
      (L.criterion = TermCrit.logLikelihoodDecreased → 2 ≤ L.iterations.length)) := by
  have hmem : L ∈ (dvoMatch inp).levels := mem_of_getLast_some h
  rcases mem_dvoMatch_levels inp hmem with ⟨gs, lvl, hEq⟩
  have hpos : 1 ≤ L.iterations.length := by
    rw [hEq]
    exact runLevelRec_len_pos inp gs lvl
  by_cases hc : L.criterion = TermCrit.logLikelihoodDecreased
  · by_cases hlen : 2 ≤ L.iterations.length
    · have hs : selectIteration L = L.iterations.get? (L.iterations.length - 2) := by
        rw [selectIteration, if_neg (by simp [hc]), if_pos hlen]
      have hlt : L.iterations.length - 2 < L.iterations.length := by omega
      rw [hs, List.get?_eq_get hlt]
      simp [hlen]
    · have hs : selectIteration L = none := by
        rw [selectIteration, if_neg (by simp [hc]), if_neg hlen]
      rw [hs]
      constructor
      · intro habs
        simp at habs
      · intro himp
        exact absurd (himp hc) hlen
  · have hs : selectIteration L = L.iterations.get? (L.iterations.length - 1) := by
      rw [selectIteration, if_pos hc]
    have hlt : L.iterations.length - 1 < L.iterations.length := by omega
    rw [hs, List.get?_eq_get hlt]
    simp [hc]

/-- C9 amended witness: evaluated on cInp9, where the lookup is out of
bounds. -/
theorem C9_lookup_bounds_amended_witness :
    (selectIteration ((dvoMatch cInp9).levels.getD 0 dfltLevel)).isSome = true ↔
      (((dvoMatch cInp9).levels.getD 0 dfltLevel).criterion = TermCrit.logLikelihoodDecreased →
        2 ≤ ((dvoMatch cInp9).levels.getD 0 dfltLevel).iterations.length) :=
  C9_lookup_bounds_amended cInp9 ((dvoMatch cInp9).levels.getD 0 dfltLevel)
    (by with_unfolding_all decide)

end ClaimC9

section ClaimC10

/-- Concrete input with two levels: on level 1 the first pass (applying
the guess) is accepted and solves the increment cV 2, and the second pass
(applying exp of cV 2) is rejected; level 0 then starts from the carried
inc. -/
def cInp10 : MatchInput GW :=
  { firstLevel := 1
    lastLevel := 0
    maxIterations := 3
    precision := 1/100
    mu := 0
    useInitialEstimate := true
    guess := Multiplicative.ofAdd (1 : ℚ)
    exp := cExp
    log := cLog
    eval := fun level k =>
      if level = 1 then (if k = 0 then ⟨4, Err.val 10⟩ else ⟨4, Err.val 20⟩)
      else (if k = 0 then ⟨5, Err.val 9⟩ else ⟨5, Err.val 30⟩)
    weightsAt := fun _ _ => [1, 1, 1, 1, 1]
    lsA := fun _ _ => fun _ _ => 0
    solve := fun _ _ => cV 2
    maxPoints := fun _ => 10
    validPixels := fun _ => 5 }

/-- Global state of cInp10 after its first pyramid level. -/
def gs10 : GlobalState GW := runLevel cInp10 (initialGlobal cInp10) 1

/-- C10 counterexample: after level 1 of cInp10, whose only accepted pass
applied the increment ofAdd 1 (the guess) and whose rejected second pass
applied the solved increment ofAdd 2, the first trial of the next level
re-applies ofAdd 2 — the increment applied by the rejected pass — and not
the last accepted increment ofAdd 1. -/
theorem C10_reseed_counterexample :
    appliedInc cInp10 (levelStartState cInp10 gs10) = Multiplicative.ofAdd (2 : ℚ)
    ∧ appliedInc cInp10 (levelStartState cInp10 (initialGlobal cInp10)) =
        Multiplicative.ofAdd (1 : ℚ)
    ∧ (gs10.levels.map fun L => L.iterations.map fun r => (r.accepted, r.increment)) =
        [[(true, some (cV 2)), (false, none)]]
    ∧ Multiplicative.ofAdd (2 : ℚ) ≠ Multiplicative.ofAdd (1 : ℚ) := by
  refine ⟨?_, ?_, ?_, ?_⟩ <;> with_unfolding_all decide

/-- C10 amended: at the start of every level x is re-seeded with the
logarithm of the carried inc, so (when exp inverts log) the first trial
pose of the level re-applies the last increment that was applied on the
previous level — the rejected one if that level terminated by rejection —
and at the first level the initial guess (or identity), staged onto the
estimate which starts at identity. -/
theorem C10_reseed_amended {G : Type} [Group G] (inp : MatchInput G)
    (hexplog : ∀ g : G, inp.exp (inp.log g) = g) (gs : GlobalState G) (level : ℤ) :
    appliedInc inp (levelStartState inp gs) = gs.inc
    ∧ ((body inp level (levelStartState inp gs)).accept = true →
        (body inp level (levelStartState inp gs)).estimate.value = gs.inc * gs.estimate.value)
    ∧ appliedInc inp (levelStartState inp (initialGlobal inp)) =
        (if inp.useInitialEstimate then inp.guess else 1)
    ∧ (initialGlobal inp : GlobalState G).estimate.value = 1 := by
  have h1 : appliedInc inp (levelStartState inp gs) = gs.inc := by
    show inp.exp (inp.log gs.inc) = gs.inc
    exact hexplog gs.inc
  refine ⟨h1, ?_, ?_, rfl⟩
  · intro hacc
    have hb : bodyAccepts inp level (levelStartState inp gs) = true := by
      rwa [body_accept] at hacc
    have h2 := (body_estimate_of_accept inp level (levelStartState inp gs) hb).1
    rw [h2, h1]
    rfl
  · show inp.exp (inp.log (initialGlobal inp).inc) = _
    rw [hexplog]
    rfl

/-- C10 amended witness: evaluated on cInp10 after its first level. -/
theorem C10_reseed_amended_witness :
    appliedInc cInp10 (levelStartState cInp10 gs10) = gs10.inc :=
  (C10_reseed_amended cInp10 (fun _ => rfl) gs10 0).1

end ClaimC10

end DVO
